import Mathlib

/-!
# Verification of the quickjs-java foreign value bridge

Shallow embedding of the Rust JNI bridge in
`src/main/rust/quickjslib/src/{java_js_proxy,js_java_proxy,context,
foreign_function,js_array,js_object}.rs`, together with proofs of the
frozen claims about it.

Modelling conventions:
* JNI class paths are abbreviated to simple class names
  (`java/lang/Boolean` becomes `booleanCls`, etc.).
* `f64` doubles are carried as opaque 64-bit patterns (`Nat`); the bridge
  never computes with them, it only moves them across, and
  `java.lang.Double` equality is bit-pattern equality.
* `rquickjs::Value::new_float` is modelled as producing a float-tagged
  JS value; `Value::new_int` an int-tagged value; the QuickJS big-int
  tag is distinct from the object tag, so `is_object` is false on it.
* Raw `Box::into_raw` pointers are modelled by an allocator `nextPtr`
  plus association lists from pointer to the boxed payload.
-/

set_option maxHeartbeats 1000000

namespace QuickJSBridge

/-- A script-side (QuickJS) value, tagged as in the engine.  Object-like
values (`objectRef`, `arrayRef`, `functionRef`) carry the identity of the
underlying engine heap object, which is what `rquickjs::Persistent`
save/restore preserves. -/
inductive JSValue where
  | null
  | undefined
  | bool (b : Bool)
  | int (v : Int)
  | float (bits : Nat)
  | str (s : String)
  | bigInt (v : Int)
  | symbol (id : Nat)
  | arrayRef (id : Nat)
  | objectRef (id : Nat)
  | functionRef (id : Nat)
  | bigDecimal (s : String)
deriving DecidableEq

namespace JSValue

/-- Model of `Value::is_null`. -/
def isNull : JSValue → Bool
  | .null => true
  | _ => false

/-- Model of `Value::is_undefined`. -/
def isUndefined : JSValue → Bool
  | .undefined => true
  | _ => false

/-- Model of `Value::is_array`: true exactly on the array tag. -/
def isArray : JSValue → Bool
  | .arrayRef _ => true
  | _ => false

/-- Model of `Value::is_function`: true exactly on the function tag. -/
def isFunction : JSValue → Bool
  | .functionRef _ => true
  | _ => false

/-- Model of `Value::is_object`: true on the object-family tags (plain objects,
arrays and functions).  The big-int, big-decimal and symbol tags are NOT
objects in QuickJS. -/
def isObject : JSValue → Bool
  | .objectRef _ => true
  | .arrayRef _ => true
  | .functionRef _ => true
  | _ => false

/-- Model of `Value::is_float`: true exactly on the float tag. -/
def isFloat : JSValue → Bool
  | .float _ => true
  | _ => false

/-- Model of `Value::is_int`: true exactly on the int tag. -/
def isInt : JSValue → Bool
  | .int _ => true
  | _ => false

/-- Model of `Value::is_string`. -/
def isString : JSValue → Bool
  | .str _ => true
  | _ => false

/-- Model of `Value::is_bool`. -/
def isBool : JSValue → Bool
  | .bool _ => true
  | _ => false

/-- Heap identity of an object-family value (guarded by `isObject`). -/
def refId : JSValue → Nat
  | .objectRef i => i
  | .arrayRef i => i
  | .functionRef i => i
  | _ => 0

end JSValue

/-- Interface capabilities of a host functional object, as queried with
`is_instance_of` in `ProxiedJavaValue::from_object`.  A host class may
implement several of these interfaces at once. -/
structure CallableCaps where
  variadic : Bool
  consumer : Bool
  biconsumer : Bool
  bifunction : Bool
  supplier : Bool
  function : Bool
deriving DecidableEq

/-- A host-side (Java) value as seen through JNI by the bridge.
`qjsArray` / `qjsObject` / `qjsFunction` are the handle-backed wrapper
objects `QuickJSArray` / `QuickJSObject` / `QuickJSFunction`; their `ptr`
field holds the raw pointer to the boxed persistent engine value.
`other` stands for any host value of a class the bridge does not
recognise, represented by its `toString()` text. -/
inductive JavaValue where
  | null
  | jBool (b : Bool)
  | jInt (v : Int)
  | jString (s : String)
  | jDouble (bits : Nat)
  | jLong (v : Int)
  | jBigInteger (v : Int)
  | jBigDecimal (s : String)
  | qjsArray (ptr : Int)
  | qjsObject (ptr : Int)
  | qjsFunction (ptr : Int) (name : Option String)
  | iterable (elems : List JavaValue)
  | jmap (entries : List (JavaValue × JavaValue))
  | callable (caps : CallableCaps) (fnId : Nat)
  | objArray (elems : List JavaValue)
  | other (stringRep : String)

/-- The Java classes/interfaces probed by `ProxiedJavaValue::from_object`
(abbreviated JNI paths). -/
inductive JClass where
  | booleanCls | integerCls | stringCls | doubleCls | floatCls
  | iterableCls | mapCls
  | quickJSArrayCls | quickJSObjectCls | quickJSFunctionCls
  | variadicFunctionCls | consumerCls | biconsumerCls
  | bifunctionCls | supplierCls | functionCls
  | bigIntegerCls | bigDecimalCls | longCls
deriving DecidableEq

/-- Model of `JNIEnv::is_instance_of`, encoding the Java class hierarchy the
bridge relies on: `QuickJSArray implements Iterable` (the unwrap check
sits inside `from_iterable`), `QuickJSObject implements Map` (inside
`from_map`), `QuickJSFunction` "implements both VariadicFunction and
Function" and `VariadicFunction` "also implements Function" (comments in
`from_object`).  `java.lang.Float` values are not modelled (their
`doubleValue()` performs an f32-to-f64 widening outside these claims), so
`floatCls` only answers false. -/
def isInstanceOf (v : JavaValue) (cls : JClass) : Bool :=
  match v, cls with
  | .jBool _, .booleanCls => true
  | .jInt _, .integerCls => true
  | .jString _, .stringCls => true
  | .jDouble _, .doubleCls => true
  | .jLong _, .longCls => true
  | .jBigInteger _, .bigIntegerCls => true
  | .jBigDecimal _, .bigDecimalCls => true
  | .qjsArray _, .quickJSArrayCls => true
  | .qjsArray _, .iterableCls => true
  | .qjsObject _, .quickJSObjectCls => true
  | .qjsObject _, .mapCls => true
  | .qjsFunction _ _, .quickJSFunctionCls => true
  | .qjsFunction _ _, .variadicFunctionCls => true
  | .qjsFunction _ _, .functionCls => true
  | .iterable _, .iterableCls => true
  | .jmap _, .mapCls => true
  | .callable caps _, .variadicFunctionCls => caps.variadic
  | .callable caps _, .consumerCls => caps.consumer
  | .callable caps _, .biconsumerCls => caps.biconsumer
  | .callable caps _, .bifunctionCls => caps.bifunction
  | .callable caps _, .supplierCls => caps.supplier
  | .callable caps _, .functionCls => caps.function || caps.variadic
  | _, _ => false

/-- Model of `ProxiedJavaValue::is_array`: the reflective `Class::isArray` check,
true exactly for host object arrays (`java.lang.Object[]`). -/
def isJavaArray : JavaValue → Bool
  | .objArray _ => true
  | _ => false

/-- Which host closure a `ProxiedJavaValue::Function` wraps: the
`from_consumer` body (calls `accept`, yields null) or the
`from_function` body (calls `apply`).  `fnId` identifies the captured
host object (the `GlobalRef` target). -/
inductive HostUnary where
  | consumerOf (fnId : Nat)
  | functionOf (fnId : Nat)
deriving DecidableEq

/-- Which host closure a `ProxiedJavaValue::BiFunction` wraps
(`from_biconsumer` or `from_bifunction`). -/
inductive HostBinary where
  | biconsumerOf (fnId : Nat)
  | bifunctionOf (fnId : Nat)
deriving DecidableEq

/-- The intermediate tagged union used while converting a host value to a
script value (`enum ProxiedJavaValue`). -/
inductive ProxiedJavaValue where
  | throwable (msg className file : String) (line : Int)
  | null
  | string (s : String)
  | double (bits : Nat)
  | int (v : Int)
  | bool (b : Bool)
  | bigDecimal (s : String)
  | bigInteger (v : Int)
  | function (f : HostUnary)
  | varFunction (fnId : Nat)
  | biFunction (f : HostBinary)
  | supplier (fnId : Nat)
  | map (entries : List (ProxiedJavaValue × ProxiedJavaValue))
  | jsFunction (ptr : Int)
  | array (elems : List ProxiedJavaValue)
  | nativeArray (ptr : Int)
  | nativeObject (ptr : Int)

/-- The variant tag of a `ProxiedJavaValue`, used to state classification
results. -/
inductive PJVKind where
  | throwable | null | string | double | int | bool
  | bigDecimal | bigInteger | function | varFunction | biFunction
  | supplier | map | jsFunction | array | nativeArray | nativeObject
deriving DecidableEq

/-- Variant tag of a `ProxiedJavaValue`. -/
def ProxiedJavaValue.kind : ProxiedJavaValue → PJVKind
  | .throwable _ _ _ _ => .throwable
  | .null => .null
  | .string _ => .string
  | .double _ => .double
  | .int _ => .int
  | .bool _ => .bool
  | .bigDecimal _ => .bigDecimal
  | .bigInteger _ => .bigInteger
  | .function _ => .function
  | .varFunction _ => .varFunction
  | .biFunction _ => .biFunction
  | .supplier _ => .supplier
  | .map _ => .map
  | .jsFunction _ => .jsFunction
  | .array _ => .array
  | .nativeArray _ => .nativeArray
  | .nativeObject _ => .nativeObject

/-- Model of `java.math.BigInteger.longValue()`: the low-order 64 bits of the
value, interpreted as a signed 64-bit integer (this is what the JVM hands
to the Rust side as `j()`). -/
def int64OfInt (v : Int) : Int := (v + 2 ^ 63) % 2 ^ 64 - 2 ^ 63

mutual

/-- Translation of `ProxiedJavaValue::from_object` and its helpers `from_iterable`,
`from_map`, `from_array`, translated branch by branch.  The host value is
classified by `is_instance_of` checks in the source's order:
null; Boolean; Integer; String; Double/Float; Iterable (inside which a
`QuickJSArray` is unwrapped to `NativeArray` before the iterator copy);
Map (inside which a `QuickJSObject` is unwrapped to `NativeObject`);
QuickJSFunction; VariadicFunction; Consumer; BiConsumer; BiFunction;
Supplier; Function; reflective array; BigInteger (via `longValue`);
BigDecimal (via `toString`); Long; fallback `toString`.
Because the modelled Java classes are disjoint except where the
hierarchy above overlaps, the chain is written as a match on the value's
constructor, with the capability chain kept explicit where several
checks can apply to one value (`callable`). -/
def fromObject : JavaValue → ProxiedJavaValue
  | .null => .null
  | .jBool b => .bool b
  | .jInt v => .int v
  | .jString s => .string s
  | .jDouble bits => .double bits
  | .qjsArray ptr => .nativeArray ptr
  | .iterable elems => .array (fromObjectList elems)
  | .qjsObject ptr => .nativeObject ptr
  | .jmap entries => .map (fromEntries entries)
  | .qjsFunction ptr _ => .jsFunction ptr
  | .callable caps fnId =>
    -- the callable sub-chain of `from_object`, in source order
    if caps.variadic then .varFunction fnId
    else if caps.consumer then .function (.consumerOf fnId)
    else if caps.biconsumer then .biFunction (.biconsumerOf fnId)
    else if caps.bifunction then .biFunction (.bifunctionOf fnId)
    else if caps.supplier then .supplier fnId
    else if caps.function then .function (.functionOf fnId)
    else .string ""  -- no capability: `toString()` fallback
  | .objArray elems => .array (fromObjectList elems)
  | .jBigInteger v => .bigInteger (int64OfInt v)
  | .jBigDecimal s => .bigDecimal s
  | .jLong v => .bigInteger v
  | .other s => .string s

/-- Element-wise conversion used by `from_iterable` / `from_array`. -/
def fromObjectList : List JavaValue → List ProxiedJavaValue
  | [] => []
  | x :: xs => fromObject x :: fromObjectList xs

/-- Entry-wise conversion used by `from_map` (`from_map_entry`). -/
def fromEntries : List (JavaValue × JavaValue) → List (ProxiedJavaValue × ProxiedJavaValue)
  | [] => []
  | (k, w) :: rest => (fromObject k, fromObject w) :: fromEntries rest

end

/-! ## Machine state: persistent-handle boxes and the engine heap -/

/-- Which host closure a JS function freshly created by `into_js` wraps
(`Function::new` on the `Function` / `BiFunction` / `Supplier` /
`VariadicFunction` arms). -/
inductive NewFnSrc where
  | ofUnary (f : HostUnary)
  | ofBinary (f : HostBinary)
  | ofSupplier (fnId : Nat)
  | ofVariadic (fnId : Nat)
deriving DecidableEq

/-- A property key as produced by the `IntoAtom` implementation of
`ProxiedJavaValue` (only `String`, `Int`, `Double` and `Bool` convert). -/
inductive PropKey where
  | str (s : String)
  | int (v : Int)
  | float (bits : Nat)
  | bool (b : Bool)
deriving DecidableEq

/-- Bridge machine state: the raw-pointer allocator with the three kinds
of `Box`es handed across JNI (`persistent_to_ptr` for arrays and
objects, `function_to_ptr` for functions), and the engine heap (object
properties, array elements, functions created from host callables). -/
structure M where
  nextPtr : Int
  arrayBoxes : List (Int × Nat)
  objectBoxes : List (Int × Nat)
  functionBoxes : List (Int × Nat)
  nextId : Nat
  props : List (Nat × List (PropKey × JSValue))
  elems : List (Nat × List JSValue)
  newFns : List (Nat × NewFnSrc)

/-- The machine state of a freshly started bridge. -/
def M.init : M := ⟨1, [], [], [], 0, [], [], []⟩

/-- Replace-or-append a property on a property list (JS `obj[k] = v`). -/
def putProp : List (PropKey × JSValue) → PropKey → JSValue → List (PropKey × JSValue)
  | [], k, v => [(k, v)]
  | (k', v') :: rest, k, v =>
    if k' = k then (k, v) :: rest else (k', v') :: putProp rest k v

/-- Update the property list of heap object `id`. -/
def updProps (l : List (Nat × List (PropKey × JSValue))) (id : Nat) (k : PropKey)
    (v : JSValue) : List (Nat × List (PropKey × JSValue)) :=
  match l with
  | [] => [(id, [(k, v)])]
  | (i, pl) :: rest =>
    if i = id then (i, putProp pl k v) :: rest else (i, pl) :: updProps rest id k v

/-- Append an element to heap array `id` (the `obj.set(i, value)` loop of
the `Array` arm runs `i` upward from 0, so sequential sets append). -/
def appendElem (l : List (Nat × List JSValue)) (id : Nat) (v : JSValue) :
    List (Nat × List JSValue) :=
  match l with
  | [] => [(id, [v])]
  | (i, es) :: rest =>
    if i = id then (i, es ++ [v]) :: rest else (i, es) :: appendElem rest id v

/-- Read property `k` of heap object `id` (missing reads as undefined). -/
def getHeapProp (m : M) (id : Nat) (k : PropKey) : JSValue :=
  (((m.props.lookup id).getD []).lookup k).getD .undefined

/-! ## Script-side errors and exceptions -/

/-- The observable data of a script exception object: its `message`
property, its engine-generated `stack`, and the three marker properties
set by the `Throwable` arm of `into_js`
(`original_java_exception_class` / `_file` / `_line`); `none` models an
absent (undefined) property. -/
structure JSExceptionData where
  message : Option String
  stack : Option String
  origClass : Option String
  origFile : Option String
  origLine : Option Int
deriving DecidableEq

/-- What `ctx.catch()` yields for a pending `Error::Exception`: a
structured exception object, a plain string, or something else. -/
inductive CaughtVal where
  | excObj (e : JSExceptionData)
  | strVal (s : String)
  | plain
deriving DecidableEq

/-- An `rquickjs::Error`: either `Error::Exception` together with the
pending thrown value, or any other engine error carrying its
description (`e.to_string()`). -/
inductive JSError where
  | exception (caught : CaughtVal)
  | other (desc : String)
deriving DecidableEq

/-- The `IntoAtom` implementation for `ProxiedJavaValue`: only `String`,
`Int`, `Double` and `Bool` convert; everything else is
`Err(Error::Exception)` (with nothing pending, so a later `catch` sees
neither an exception object nor a string). -/
def intoAtom : ProxiedJavaValue → Except JSError PropKey
  | .string s => .ok (.str s)
  | .int v => .ok (.int v)
  | .double bits => .ok (.float bits)
  | .bool b => .ok (.bool b)
  | _ => .error (.exception .plain)

/-! ## `IntoJs for ProxiedJavaValue` (java_js_proxy.rs) -/

mutual

/-- Translation of `ProxiedJavaValue::into_js`, arm by arm.  `Throwable` builds an
exception carrying the message and the three marker properties and
throws it (the fresh exception's engine backtrace is not modelled, its
`stack` is left absent).  `BigDecimal` models the `ctx.eval("{v}m")`
big-decimal literal.  `JSFunction` / `NativeArray` / `NativeObject`
recover the live engine value from the box behind the raw pointer
(`ptr_to_function` / `ptr_to_persistent` + `Persistent::restore`);
using a pointer that no box was allocated for is undefined behaviour in
the source and is modelled as an engine error. -/
def intoJs (m : M) : ProxiedJavaValue → Except JSError JSValue × M
  | .throwable msg cn file line =>
    (.error (.exception (.excObj ⟨some msg, none, some cn, some file, some line⟩)), m)
  | .null => (.ok .null, m)
  | .string s => (.ok (.str s), m)
  | .double bits => (.ok (.float bits), m)
  | .int v => (.ok (.int v), m)
  | .bool b => (.ok (.bool b), m)
  | .bigDecimal s => (.ok (.bigDecimal s), m)
  | .bigInteger v => (.ok (.bigInt v), m)
  | .function f =>
    let id := m.nextId
    (.ok (.functionRef id),
      { m with nextId := id + 1, newFns := (id, .ofUnary f) :: m.newFns })
  | .supplier fnId =>
    let id := m.nextId
    (.ok (.functionRef id),
      { m with nextId := id + 1, newFns := (id, .ofSupplier fnId) :: m.newFns })
  | .biFunction f =>
    let id := m.nextId
    (.ok (.functionRef id),
      { m with nextId := id + 1, newFns := (id, .ofBinary f) :: m.newFns })
  | .map entries =>
    let id := m.nextId
    let m1 := { m with nextId := id + 1, props := (id, []) :: m.props }
    match setEntries m1 id entries with
    | (.ok _, m2) => (.ok (.objectRef id), m2)
    | (.error e, m2) => (.error e, m2)
  | .jsFunction ptr =>
    match m.functionBoxes.lookup ptr with
    | some id => (.ok (.functionRef id), m)
    | none => (.error (.other "invalid function handle"), m)
  | .array elems =>
    let id := m.nextId
    let m1 := { m with nextId := id + 1, elems := (id, []) :: m.elems }
    match setElems m1 id elems with
    | (.ok _, m2) => (.ok (.arrayRef id), m2)
    | (.error e, m2) => (.error e, m2)
  | .varFunction fnId =>
    let id := m.nextId
    (.ok (.functionRef id),
      { m with nextId := id + 1, newFns := (id, .ofVariadic fnId) :: m.newFns })
  | .nativeArray ptr =>
    match m.arrayBoxes.lookup ptr with
    | some id => (.ok (.arrayRef id), m)
    | none => (.error (.other "invalid array handle"), m)
  | .nativeObject ptr =>
    match m.objectBoxes.lookup ptr with
    | some id => (.ok (.objectRef id), m)
    | none => (.error (.other "invalid object handle"), m)

/-- The `Map` arm's loop: `obj.set(key, value)` for each entry, key via
`IntoAtom`, value via `IntoJs`, short-circuiting on the first error
(the `?` operator). -/
def setEntries (m : M) (id : Nat) :
    List (ProxiedJavaValue × ProxiedJavaValue) → Except JSError Unit × M
  | [] => (.ok (), m)
  | (k, v) :: rest =>
    match intoAtom k with
    | .error e => (.error e, m)
    | .ok key =>
      match intoJs m v with
      | (.error e, m') => (.error e, m')
      | (.ok jsv, m') =>
        setEntries { m' with props := updProps m'.props id key jsv } id rest

/-- The `Array` arm's loop: convert each element with `into_js` and set
it at the next index, short-circuiting on the first error. -/
def setElems (m : M) (id : Nat) : List ProxiedJavaValue → Except JSError Unit × M
  | [] => (.ok (), m)
  | v :: rest =>
    match intoJs m v with
    | (.error e, m') => (.error e, m')
    | (.ok jsv, m') =>
      setElems { m' with elems := appendElem m'.elems id jsv } id rest

end

/-! ## `JSJavaProxy::into_jobject` (js_java_proxy.rs) -/

/-- Translation of `JSJavaProxy::into_jobject`, branch by branch and in the source's
order: null; undefined; array (`Persistent::save` then box the
persistent, hand a `QuickJSArray` wrapper the pointer); function (read
the `name` property, box the function, hand a `QuickJSFunction` the
pointer); object (as array, `QuickJSObject`); float; int; string; bool;
and for every remaining tag — notably the big-int tag — the final `else`
logs an error and produces `None`.  The `name` property conversion is
modelled for string and absent names (the wrapper stores it but the
bridge never reads it back). -/
def intoJobject (m : M) : JSValue → Option JavaValue × M
  | .null => (some .null, m)
  | .undefined => (some .null, m)
  | .arrayRef id =>
    let p := m.nextPtr
    (some (.qjsArray p),
      { m with nextPtr := p + 1, arrayBoxes := (p, id) :: m.arrayBoxes })
  | .functionRef id =>
    let name : Option String :=
      match getHeapProp m id (.str "name") with
      | .str s => some s
      | _ => none
    let p := m.nextPtr
    (some (.qjsFunction p name),
      { m with nextPtr := p + 1, functionBoxes := (p, id) :: m.functionBoxes })
  | .objectRef id =>
    let p := m.nextPtr
    (some (.qjsObject p),
      { m with nextPtr := p + 1, objectBoxes := (p, id) :: m.objectBoxes })
  | .float bits => (some (.jDouble bits), m)
  | .int v => (some (.jInt v), m)
  | .str s => (some (.jString s), m)
  | .bool b => (some (.jBool b), m)
  | .bigInt _ => (none, m)
  | .symbol _ => (none, m)
  | .bigDecimal _ => (none, m)

/-! ## Exception bridge (from_throwable / handle_exception) -/

/-- A host exception as inspected through JNI by `from_throwable`:
`getMessage`, `getClass().getName()` (dotted), and the stack trace as
`(getFileName, getLineNumber)` pairs (`getFileName` may be null). -/
structure JavaThrowable where
  message : String
  className : String
  stackTrace : List (Option String × Int)

/-- Translation of `ProxiedJavaValue::from_throwable`: message and class name always;
file and line from the first stack-trace element when the trace is
non-empty (a null file name becomes the empty string), otherwise the
empty string and line -1. -/
def fromThrowable (t : JavaThrowable) : ProxiedJavaValue :=
  match t.stackTrace with
  | [] => .throwable t.message t.className "" (-1)
  | (file, line) :: _ => .throwable t.message t.className (file.getD "") line

/-- Model of `class_name.replace('.', "/")` in `handle_exception`. -/
def replaceDotSlash (s : String) : String :=
  (s.toList.map (fun c => if c = '.' then '/' else c)).asString

/-- A host exception thrown into the JNI environment: its class, its
constructor arguments (message), its cause (class name and message of
the reconstructed original host exception, when present), and the file /
stack strings passed to the `QuickJSScriptException` constructor. -/
structure JavaExceptionObj where
  className : String
  message : Option String
  cause : Option (String × Option String)
  file : Option String
  stack : Option String
deriving DecidableEq

/-- JNI path of the bridge's script-exception class. -/
def quickJSScriptExceptionCls : String :=
  "io/github/stefanrichterhuber/quickjs/QuickJSScriptException"

/-- Translation of `handle_exception` (context.rs): for `Error::Exception`, catch the
pending value; a structured exception yields a `QuickJSScriptException`
built from its message, its stack, the `original_java_exception_file`
marker (defaulting to the "<script>" placeholder), and — when the
`original_java_exception_class` marker is present and the named class
can be found (`kc` is the set of loadable class paths, slashed form) — a
reconstructed cause of that class with the same message; an unlocatable
class clears the pending lookup failure and leaves the cause null.  A
pending plain string becomes a message-only exception; any other pending
value the fixed "Unknown type" message; every other engine error its
description. -/
def handleException (kc : List String) : JSError → JavaExceptionObj
  | .exception (.excObj ex) =>
    let fileName :=
      match ex.origFile with
      | none => "<script>"
      | some f => f
    let cause :=
      match ex.origClass with
      | none => none
      | some cn =>
        if kc.contains (replaceDotSlash cn) then some (cn, ex.message) else none
    ⟨quickJSScriptExceptionCls, ex.message, cause, some fileName, ex.stack⟩
  | .exception (.strVal s) => ⟨quickJSScriptExceptionCls, some s, none, none, none⟩
  | .exception .plain =>
    ⟨quickJSScriptExceptionCls, some "Unknown type of JS Error::Exception", none, none, none⟩
  | .other desc => ⟨quickJSScriptExceptionCls, some desc, none, none, none⟩

/-- The shared body of the wrapped host-callable closures
(`from_function`, `from_bifunction`, `from_supplier`,
`VariadicFunction::call`): after calling into the host,
`exception_check` routes a thrown host exception through
`from_throwable` and otherwise the host result through `from_object`;
the returned `ProxiedJavaValue` is then materialised in the engine by
`into_js` (a `Throwable` becomes a thrown script exception). -/
def hostCallbackResult (m : M) (callOutcome : Except JavaThrowable JavaValue) :
    Except JSError JSValue × M :=
  match callOutcome with
  | .error t => intoJs m (fromThrowable t)
  | .ok v => intoJs m (fromObject v)

/-! ## Reentrancy context stack (with_context) and engine scopes -/

/-- Outcome of running a borrowed closure: normal return or unwind. -/
inductive FOutcome (R : Type u) where
  | normal (r : R)
  | panicked

/-- Value of a normal outcome (unwind carries none). -/
def FOutcome.getD : FOutcome R → R → R
  | .normal r, _ => r
  | .panicked, d => d

/-- The per-thread stack of `(context address, live scope)` entries
(`CONTEXT_STACK`), pushed at the end as `Vec::push` does. -/
abbrev CtxStack := List (Int × Nat)

/-- Translation of `with_context` (context.rs): search the stack from the top
(`iter().rev().find`) for an entry whose context address equals `ptr`;
if found, run `f` directly on the (lifetime-cast) existing scope without
touching the stack; otherwise enter the engine (`Context::with`, which
opens the new scope `fresh`), push the entry, run `f`, and pop via the
drop guard — on normal return and on unwind alike. -/
def withContext (st : CtxStack) (ptr : Int) (fresh : Nat)
    (f : Nat → FOutcome R) : FOutcome R × CtxStack :=
  match st.reverse.find? (fun e => e.1 == ptr) with
  | some e => (f e.2, st)
  | none =>
    let st1 := st.concat (ptr, fresh)
    (f fresh, st1.dropLast)

/-- Model of `rquickjs::Context::with`: enters the engine's own guard and opens a
new execution scope on every call; it knows nothing about the bridge's
thread-local stack. -/
def contextWith (fresh : Nat) (f : Nat → R) : R := f fresh

/-- Translation of `with_object` (js_object.rs): recover the persistent object from its
box, then run `f ctx objId` directly inside `Context::with` — the
reentrancy stack is neither read nor written (a stale object pointer is
undefined behaviour in the source; the lookup default is irrelevant
under the claims' hypotheses). -/
def withObject (st : CtxStack) (m : M) (fresh : Nat) (objectPtr : Int)
    (f : Nat → Nat → R) : R × CtxStack :=
  let objId := (m.objectBoxes.lookup objectPtr).getD 0
  (contextWith fresh (fun ctx => f ctx objId), st)

/-- Translation of `with_array` (js_array.rs): recover the persistent array from its
box, then run `f ctx arrId` through `with_context`. -/
def withArray (st : CtxStack) (m : M) (ctxPtr : Int) (fresh : Nat)
    (arrayPtr : Int) (f : Nat → Nat → R) : FOutcome R × CtxStack :=
  let arrId := (m.arrayBoxes.lookup arrayPtr).getD 0
  withContext st ctxPtr fresh (fun ctx => .normal (f ctx arrId))

/-! ## Array handle operations (js_array.rs) -/

/-- JNI `QuickJSArray.setValue(ptr, ctx, index, value)`: convert the
value, run `array.set(index, value)` inside `with_array`; a failed
assignment is routed through `handle_exception` (an exception is thrown
into the JNI environment, returned here as the second component) — and
the function returns `true as jboolean` unconditionally.  The engine's
outcome for the element assignment is the parameter `setOutcome`. -/
def qjsArraySetValue (st : CtxStack) (m : M) (ctxPtr : Int) (fresh : Nat)
    (arrayPtr : Int) (_index : Int) (_value : JavaValue) (kc : List String)
    (setOutcome : Except JSError Unit) : (Bool × Option JavaExceptionObj) × CtxStack :=
  let r := withArray st m ctxPtr fresh arrayPtr (fun _ctx _arr =>
    match setOutcome with
    | .ok _ => (none : Option JavaExceptionObj)
    | .error e => some (handleException kc e))
  ((true, r.1.getD none), r.2)

/-- JNI `QuickJSArray.addValue(ptr, ctx, index, value)`: insert via the
engine's `splice` (`splice_array array index 0 (Some value)`); on a
splice failure the error is routed through `handle_exception` and the
function returns `false`, otherwise `true`.  `spliceOutcome` is the
engine's outcome for the splice call (including the `obj.get("splice")`
lookup). -/
def qjsArrayAddValue (st : CtxStack) (m : M) (ctxPtr : Int) (fresh : Nat)
    (arrayPtr : Int) (_index : Int) (_value : JavaValue) (kc : List String)
    (spliceOutcome : Except JSError Unit) : (Bool × Option JavaExceptionObj) × CtxStack :=
  let r := withArray st m ctxPtr fresh arrayPtr (fun _ctx _arr =>
    match spliceOutcome with
    | .ok _ => ((true, none) : Bool × Option JavaExceptionObj)
    | .error e => (false, some (handleException kc e)))
  (r.1.getD (true, none), r.2)

/-- JNI `QuickJSArray.removeValue(ptr, ctx, index)`: delete via the
engine's `splice` (`splice_array array index 1 None`); on failure the
error is routed through `handle_exception` and the function returns
`false`, otherwise `true`. -/
def qjsArrayRemoveValue (st : CtxStack) (m : M) (ctxPtr : Int) (fresh : Nat)
    (arrayPtr : Int) (_index : Int) (kc : List String)
    (spliceOutcome : Except JSError Unit) : (Bool × Option JavaExceptionObj) × CtxStack :=
  let r := withArray st m ctxPtr fresh arrayPtr (fun _ctx _arr =>
    match spliceOutcome with
    | .ok _ => ((true, none) : Bool × Option JavaExceptionObj)
    | .error e => (false, some (handleException kc e)))
  (r.1.getD (true, none), r.2)

/-! ## Function invocation adapter (context.rs invoke, foreign_function.rs) -/

/-- How a JS function is called through the rquickjs API:
`func.call(())` — the distinguished zero-argument path — or
`func.call_arg(args)` with an explicit argument vector. -/
inductive FnCall where
  | noArgs
  | withArgs (args : List JSValue)

/-- The engine context seen by `invoke`: the global object's properties
and the behaviour of each callable engine function (`fid` applied to a
`FnCall` yields the call's result or a script error). -/
structure Eng where
  globals : List (String × JSValue)
  fnBeh : Nat → FnCall → Except JSError JSValue

/-- Model of `globals.get(name)`: a missing global reads as undefined. -/
def getGlobalV (eng : Eng) (key : String) : JSValue :=
  (eng.globals.lookup key).getD .undefined

/-- The object a path-walk step holds: the global object or a heap
object. -/
inductive Target where
  | globalsT
  | objT (id : Nat)

/-- Model of `target.get(part)` during the dotted walk: a property read on the
global object or on a heap object (missing reads as undefined; property
getters that throw are not modelled, so the walk's `Err` arm — routed
through `handle_exception` in the source — is unreachable here). -/
def getFrom (eng : Eng) (m : M) : Target → String → JSValue
  | .globalsT, key => getGlobalV eng key
  | .objT id, key => getHeapProp m id (.str key)

/-- Failure of the dotted walk: the offending segment whose value is not
an object. -/
inductive WalkErr where
  | notAnObject (part : String)
deriving DecidableEq

/-- The loop over `parts.iter().take(parts.len() - 1)` in `invoke`: read
each segment from the current target; if the value is an object it
becomes the new target, otherwise the walk fails naming that segment. -/
def walkPath (eng : Eng) (m : M) : Target → List String → Except WalkErr Target
  | tgt, [] => .ok tgt
  | tgt, p :: rest =>
    let s := getFrom eng m tgt p
    if s.isObject then walkPath eng m (.objT s.refId) rest
    else .error (.notAnObject p)

/-- Rust `str::split('.')` on the character list: every separator splits,
empty segments are kept, and the empty string yields one empty
segment. -/
def splitOnChar (c : Char) : List Char → List (List Char)
  | [] => [[]]
  | x :: xs =>
    let r := splitOnChar c xs
    if x = c then [] :: r
    else (x :: r.headD []) :: r.tail

/-- Result of a JNI boundary call that returns a host object: a value, a
`throw_new` with class and message, a `handle_exception`-thrown script
exception, or a Rust panic from a failed `unwrap()`. -/
inductive InvokeRes where
  | ok (v : JavaValue)
  | threwNew (cls msg : String)
  | handled (ex : JavaExceptionObj)
  | panicked

/-- The argument-push loop of
`invoke_js_function_with_java_parameters`: each already-converted
`ProxiedJavaValue` is materialised by `into_js` when pushed
(`Args::push_arg`), short-circuiting on the first conversion error. -/
def pushArgs (m : M) : List ProxiedJavaValue → Except JSError (List JSValue) × M
  | [] => (.ok [], m)
  | a :: rest =>
    match intoJs m a with
    | (.error e, m') => (.error e, m')
    | (.ok v, m') =>
      match pushArgs m' rest with
      | (.ok vs, m'') => (.ok (v :: vs), m'')
      | (.error e, m'') => (.error e, m'')

/-- The tail of `invoke_js_function_with_java_parameters`: the call
result is converted with `into_jobject` (whose `None` is `unwrap()`ed —
a panic), a script error is routed through `handle_exception`. -/
def finishCall (m : M) (kc : List String) (res : Except JSError JSValue) : InvokeRes × M :=
  match res with
  | .ok s =>
    match intoJobject m s with
    | (some j, m') => (.ok j, m')
    | (none, m') => (.panicked, m')
  | .error e => (.handled (handleException kc e), m)

/-- Translation of `invoke_js_function_with_java_parameters` (foreign_function.rs): when
the host argument array is non-empty (`args_len > 0`) each element is
converted with `from_object` and pushed (materialised by `into_js`, a
failed push being `unwrap()`ed), and the function is called with the
argument vector; otherwise it is called through the distinguished
zero-argument path `func.call(())`. -/
def invokeJsFn (eng : Eng) (m : M) (kc : List String) (fid : Nat)
    (params : List JavaValue) : InvokeRes × M :=
  if params.length > 0 then
    match pushArgs m (params.map fromObject) with
    | (.error _, m1) => (.panicked, m1)
    | (.ok jsArgs, m1) => finishCall m1 kc (eng.fnBeh fid (.withArgs jsArgs))
  else finishCall m kc (eng.fnBeh fid .noArgs)

/-- The body of JNI `QuickJSContext.invoke(ptr, name, args)`
(context.rs): when the name contains a dot, split it on `.`, walk all
but the last segment from the global object (`"X is not an object"`
with the offending segment on a non-object intermediate), and read the
final segment from the reached target; otherwise read the name from the
global object directly.  A callable final value is invoked through
`invoke_js_function_with_java_parameters`; anything else raises
`java/lang/Exception` with `"<name> is not a function"` — `name` being
the full dotted string, whose inner shadowing by the last segment ends
with the walk.  (The surrounding `with_context` / context-box plumbing
is modelled by `withContext`.) -/
def invokeNative (eng : Eng) (m : M) (kc : List String) (name : String)
    (args : List JavaValue) : InvokeRes × M :=
  let fv : Except WalkErr JSValue :=
    if name.toList.contains '.' then
      let parts := (splitOnChar '.' name.toList).map (fun l => String.mk l)
      let fname := parts.getLastD ""
      (walkPath eng m .globalsT parts.dropLast).map (fun tgt => getFrom eng m tgt fname)
    else .ok (getGlobalV eng name)
  match fv with
  | .error (.notAnObject part) =>
    (.threwNew "java/lang/Exception" (part ++ " is not an object"), m)
  | .ok f =>
    if f.isFunction then invokeJsFn eng m kc f.refId args
    else (.threwNew "java/lang/Exception" (name ++ " is not a function"), m)

/-! ## Classification order (claim C4) -/

/-- Model of `obj.is_null()` on the JNI reference. -/
def isNullJ : JavaValue → Bool
  | .null => true
  | _ => false

/-- The classification induced by `from_object`'s chain of checks,
written as the source's literal ordered `is_instance_of` chain, at the
level of variant tags: null; Boolean; Integer; String; Double/Float;
Iterable (unwrapping a `QuickJSArray`); Map (unwrapping a
`QuickJSObject`); QuickJSFunction; VariadicFunction; Consumer;
BiConsumer; BiFunction; Supplier; Function; reflective array;
BigInteger; BigDecimal; Long; fallback stringification. -/
def classifyKind (v : JavaValue) : PJVKind :=
  if isNullJ v then .null
  else if isInstanceOf v .booleanCls then .bool
  else if isInstanceOf v .integerCls then .int
  else if isInstanceOf v .stringCls then .string
  else if isInstanceOf v .doubleCls || isInstanceOf v .floatCls then .double
  else if isInstanceOf v .iterableCls then
    (if isInstanceOf v .quickJSArrayCls then .nativeArray else .array)
  else if isInstanceOf v .mapCls then
    (if isInstanceOf v .quickJSObjectCls then .nativeObject else .map)
  else if isInstanceOf v .quickJSFunctionCls then .jsFunction
  else if isInstanceOf v .variadicFunctionCls then .varFunction
  else if isInstanceOf v .consumerCls then .function
  else if isInstanceOf v .biconsumerCls then .biFunction
  else if isInstanceOf v .bifunctionCls then .biFunction
  else if isInstanceOf v .supplierCls then .supplier
  else if isInstanceOf v .functionCls then .function
  else if isJavaArray v then .array
  else if isInstanceOf v .bigIntegerCls then .bigInteger
  else if isInstanceOf v .bigDecimalCls then .bigDecimal
  else if isInstanceOf v .longCls then .bigInteger
  else .string

/-- Modelled from the spec: the classification order asserted by claim
C4 — null; boolean; 32-bit integer-like; 64-bit integer-like (to
big-integer); floating-point; string; unwrap of previously-exported
script arrays/objects; unwrap of previously-exported script functions;
ordered sequence; key/value mapping; single-argument callable;
two-argument callable; zero-argument callable; variadic callable;
big-integer type; arbitrary-precision decimal type; fallback
stringification. -/
def specClassify (v : JavaValue) : PJVKind :=
  if isNullJ v then .null
  else if isInstanceOf v .booleanCls then .bool
  else if isInstanceOf v .integerCls then .int
  else if isInstanceOf v .longCls then .bigInteger
  else if isInstanceOf v .doubleCls || isInstanceOf v .floatCls then .double
  else if isInstanceOf v .stringCls then .string
  else if isInstanceOf v .quickJSArrayCls then .nativeArray
  else if isInstanceOf v .quickJSObjectCls then .nativeObject
  else if isInstanceOf v .quickJSFunctionCls then .jsFunction
  else if isInstanceOf v .iterableCls then .array
  else if isInstanceOf v .mapCls then .map
  else if isInstanceOf v .functionCls then .function
  else if isInstanceOf v .bifunctionCls then .biFunction
  else if isInstanceOf v .supplierCls then .supplier
  else if isInstanceOf v .variadicFunctionCls then .varFunction
  else if isInstanceOf v .bigIntegerCls then .bigInteger
  else if isInstanceOf v .bigDecimalCls then .bigDecimal
  else .string

/-! ## Round trips -/

/-- Composition `to_host(to_script(x))`: host value to script value
(`from_object` + `into_js`) and back (`into_jobject`); `none` when
either direction produces no value. -/
def roundTrip (m : M) (v : JavaValue) : Option JavaValue :=
  match intoJs m (fromObject v) with
  | (.ok s, m') => (intoJobject m' s).1
  | (.error _, _) => none

/-- The script big-integer obtained from a host `java.math.BigInteger`
(`from_object`'s BigInteger branch + `into_js`). -/
def bigIntegerToScript (m : M) (v : Int) : Option Int :=
  match intoJs m (fromObject (.jBigInteger v)) with
  | (.ok (.bigInt w), _) => some w
  | _ => none

/-- The script big-integer obtained from a host `java.lang.Long`
(`from_object`'s Long branch + `into_js`). -/
def longToScript (m : M) (v : Int) : Option Int :=
  match intoJs m (fromObject (.jLong v)) with
  | (.ok (.bigInt w), _) => some w
  | _ => none

/-- Engine used to witness the invocation contract: the global `math` is
an object (heap id 0) and engine function 0 squares its argument. -/
def c6Eng : Eng :=
  ⟨[("math", .objectRef 0)],
   fun _ c =>
     match c with
     | .withArgs [.int v] => .ok (.int (v * v))
     | _ => .ok .undefined⟩

/-- Machine used to witness the invocation contract: heap object 0 has a
`square` property holding function 0. -/
def c6M : M := { M.init with props := [(0, [(.str "square", .functionRef 0)])] }

/-! ## Helper lemmas -/

theorem withContext_snd (st : CtxStack) (ptr : Int) (fresh : Nat)
    (f : Nat → FOutcome R) : (withContext st ptr fresh f).2 = st := by
  unfold withContext
  cases h : st.reverse.find? (fun e => e.1 == ptr) with
  | some e => simp
  | none => simp [List.dropLast_concat]

theorem withContext_fst (st : CtxStack) (ptr : Int) (fresh : Nat)
    (f : Nat → FOutcome R) :
    (∃ e ∈ st, e.1 = ptr ∧ (withContext st ptr fresh f).1 = f e.2) ∨
    ((∀ e ∈ st, e.1 ≠ ptr) ∧ (withContext st ptr fresh f).1 = f fresh) := by
  unfold withContext
  cases h : st.reverse.find? (fun e => e.1 == ptr) with
  | some e =>
    left
    refine ⟨e, ?_, ?_, by simp⟩
    · exact List.mem_reverse.mp (List.mem_of_find?_eq_some h)
    · have := List.find?_some h
      simpa using this
  | none =>
    right
    constructor
    · intro e he
      have := List.find?_eq_none.mp h e (List.mem_reverse.mpr he)
      simpa using this
    · simp

theorem withContext_const (st : CtxStack) (ptr : Int) (fresh : Nat) (k : R) :
    withContext st ptr fresh (fun _ => FOutcome.normal k) = (.normal k, st) := by
  have h2 := withContext_snd st ptr fresh (fun _ => FOutcome.normal k)
  rcases withContext_fst st ptr fresh (fun _ => FOutcome.normal k) with
    ⟨e, _, _, h1⟩ | ⟨_, h1⟩ <;>
    exact Prod.ext_iff.mpr ⟨h1, h2⟩

theorem withArray_const (st : CtxStack) (m : M) (ctxPtr : Int) (fresh : Nat)
    (arrayPtr : Int) (k : R) :
    withArray st m ctxPtr fresh arrayPtr (fun _ _ => k) = (.normal k, st) := by
  unfold withArray
  exact withContext_const st ctxPtr fresh k

theorem splitOnChar_of_no_sep (c : Char) (xs : List Char)
    (h : xs.contains c = false) : splitOnChar c xs = [xs] := by
  induction xs with
  | nil => rfl
  | cons x xs ih =>
    simp only [List.contains_cons, Bool.or_eq_false_iff] at h
    have hx : ¬ x = c := fun hh => (by simpa using h.1 : ¬ c = x) hh.symm
    simp [splitOnChar, hx, ih h.2]

theorem splitOnChar_append (c : Char) (xs ys : List Char)
    (h : xs.contains c = false) :
    splitOnChar c (xs ++ c :: ys) = xs :: splitOnChar c ys := by
  induction xs with
  | nil => simp [splitOnChar]
  | cons x xs ih =>
    simp only [List.contains_cons, Bool.or_eq_false_iff] at h
    have hx : ¬ x = c := fun hh => (by simpa using h.1 : ¬ c = x) hh.symm
    simp [splitOnChar, hx, ih h.2]

/-! ## Claims -/

/-- C1: of the five primitive kinds claimed to round-trip
(`to_host(to_script(x)) == x`), boolean, 32-bit integer, double and
string do — but the 64-bit-integer kind does not: a `java.lang.Long`
becomes a script big-integer, and `into_jobject` has no branch for the
big-int tag, so the script-to-host direction produces no host value at
all (its callers `unwrap()` the `None` and panic).  The same holds for an
in-range `java.math.BigInteger`. -/
theorem primitive_round_trip_status :
    (∀ (m : M) (b : Bool), roundTrip m (.jBool b) = some (.jBool b)) ∧
    (∀ (m : M) (v : Int), roundTrip m (.jInt v) = some (.jInt v)) ∧
    (∀ (m : M) (bits : Nat), roundTrip m (.jDouble bits) = some (.jDouble bits)) ∧
    (∀ (m : M) (s : String), roundTrip m (.jString s) = some (.jString s)) ∧
    roundTrip M.init (.jLong 1) = none ∧
    roundTrip M.init (.jBigInteger 1) = none :=
  ⟨fun _ _ => rfl, fun _ _ => rfl, fun _ _ => rfl, fun _ _ => rfl, rfl, rfl⟩

/-- C2: `into_jobject` is not total over the script value kinds: it maps
null and undefined to host null and boolean/int/float/string to the
corresponding host wrappers, but a big-integer script value hits no
branch and yields `None` (no host value; callers `unwrap()` and panic)
instead of the claimed `java.lang.Long` wrapper. -/
theorem into_jobject_bigint_status :
    (intoJobject M.init .null).1 = some .null ∧
    (intoJobject M.init .undefined).1 = some .null ∧
    (intoJobject M.init (.bool true)).1 = some (.jBool true) ∧
    (intoJobject M.init (.int 7)).1 = some (.jInt 7) ∧
    (intoJobject M.init (.float 77)).1 = some (.jDouble 77) ∧
    (intoJobject M.init (.str "x")).1 = some (.jString "x") ∧
    (intoJobject M.init (.bigInt 2)).1 = none :=
  ⟨rfl, rfl, rfl, rfl, rfl, rfl, rfl⟩

/-- C3: a script array or object previously converted out as a
handle-backed wrapper converts back in identity-preservingly: the
out-conversion boxes a persistent handle to the engine object behind a
fresh pointer `m.nextPtr`; the resulting `QuickJSArray` /
`QuickJSObject` wrapper short-circuits in `from_iterable` / `from_map`
to `NativeArray` / `NativeObject` carrying that pointer; and `into_js`
restores the very same engine object (same heap identity `aid` / `oid`)
without touching the machine state — no structural copy is made, so
mutations through the wrapper are visible to script code holding the
same object. -/
theorem handle_backed_wrapper_identity (m : M) (aid oid : Nat) :
    (intoJobject m (.arrayRef aid)).1 = some (.qjsArray m.nextPtr) ∧
    fromObject (.qjsArray m.nextPtr) = .nativeArray m.nextPtr ∧
    intoJs (intoJobject m (.arrayRef aid)).2 (.nativeArray m.nextPtr)
      = (.ok (.arrayRef aid), (intoJobject m (.arrayRef aid)).2) ∧
    (intoJobject m (.objectRef oid)).1 = some (.qjsObject m.nextPtr) ∧
    fromObject (.qjsObject m.nextPtr) = .nativeObject m.nextPtr ∧
    intoJs (intoJobject m (.objectRef oid)).2 (.nativeObject m.nextPtr)
      = (.ok (.objectRef oid), (intoJobject m (.objectRef oid)).2) := by
  refine ⟨rfl, rfl, ?_, rfl, rfl, ?_⟩ <;>
    simp [intoJs, intoJobject, List.lookup]

/-- C4 counterexample: the claimed classification order misclassifies
every plain `VariadicFunction`.  Such a host object also implements
`java.util.function.Function` (per the source's own comment), so under
the claimed order — single-argument callable checked before variadic —
it would be wrapped as a unary host callable, while `from_object`
(which checks `VariadicFunction` first, precisely for this reason)
wraps it variadically. -/
theorem spec_classification_order_refuted :
    (fromObject (.callable ⟨true, false, false, false, false, false⟩ 0)).kind
        = .varFunction ∧
    specClassify (.callable ⟨true, false, false, false, false, false⟩ 0)
        = .function ∧
    (fromObject (.callable ⟨true, false, false, false, false, false⟩ 0)).kind
        ≠ specClassify (.callable ⟨true, false, false, false, false, false⟩ 0) := by
  refine ⟨rfl, rfl, ?_⟩
  decide

/-- C4 (amended): `from_object` classifies host values by capability
checks in this order: null; boolean; 32-bit integer-like; string;
floating-point; ordered sequence (unwrapping a previously-exported
script array first); key/value mapping (unwrapping a
previously-exported script object first); previously-exported script
function; variadic callable; one-argument void callable (Consumer);
two-argument void callable (BiConsumer); two-argument callable
(BiFunction); zero-argument callable (Supplier); single-argument
callable (Function); host object array (to array, recursively);
big-integer type; arbitrary-precision decimal type; 64-bit integer-like
(to big-integer); fallback to the value's textual representation as a
script string. -/
theorem from_object_classification_order (v : JavaValue) :
    (fromObject v).kind = classifyKind v := by
  cases v with
  | callable caps fnId =>
    rcases caps with ⟨v1, v2, v3, v4, v5, v6⟩
    cases v1 <;> cases v2 <;> cases v3 <;> cases v4 <;> cases v5 <;> cases v6 <;> rfl
  | _ => rfl

/-- C5: every `with_context` call either finds an entry for the same
context identity on the thread-local stack and invokes `f` directly on
that entry's scope (pushing nothing), or, finding none, opens a new
engine scope, pushes, invokes `f` on it and pops on every exit path —
`f`'s outcome may be a panic (`FOutcome.panicked`) and the guard still
pops — so the stack after the call equals the stack before it. -/
theorem with_context_stack_discipline (st : CtxStack) (ptr : Int) (fresh : Nat)
    (f : Nat → FOutcome R) :
    (withContext st ptr fresh f).2 = st ∧
    ((∃ e ∈ st, e.1 = ptr ∧ (withContext st ptr fresh f).1 = f e.2) ∨
     ((∀ e ∈ st, e.1 ≠ ptr) ∧ (withContext st ptr fresh f).1 = f fresh)) :=
  ⟨withContext_snd st ptr fresh f, withContext_fst st ptr fresh f⟩

/-- C7: a host exception of class `cn` with message `msg` thrown inside
a wrapped host callable is converted at the callback boundary
(`from_throwable` + the `Throwable` arm of `into_js`) into a thrown
script exception carrying `msg` and the three marker properties
`original_java_exception_class` / `_file` / `_line`; when that exception
surfaces to a host frame, `handle_exception` reconstructs a cause of
class `cn` with message `msg` (provided the class can be loaded,
`hfind`) and attaches it to the raised `QuickJSScriptException`. -/
theorem host_exception_round_trip (m : M) (kc : List String)
    (cn msg : String) (file : Option String) (line : Int)
    (rest : List (Option String × Int))
    (hfind : kc.contains (replaceDotSlash cn) = true) :
    hostCallbackResult m (.error ⟨msg, cn, (file, line) :: rest⟩)
      = (.error (.exception (.excObj
          ⟨some msg, none, some cn, some (file.getD ""), some line⟩)), m) ∧
    handleException kc (.exception (.excObj
        ⟨some msg, none, some cn, some (file.getD ""), some line⟩))
      = ⟨quickJSScriptExceptionCls, some msg, some (cn, some msg),
          some (file.getD ""), none⟩ := by
  constructor
  · rfl
  · have hmem : replaceDotSlash cn ∈ kc := by simpa using hfind
    simp [handleException, hmem]

/-- C8: converting a host `java.math.BigInteger` to a script value takes
only its low 64 bits (`longValue`): inside the signed 64-bit range the
script big-integer equals the host value exactly, outside it the result
(`int64OfInt w`, which always lies in the range) differs from the
original — a silently lossy conversion; a host `java.lang.Long` (whose
value is an i64 by construction) goes through the same exact path. -/
theorem bigint_conversion_low64 (m : M) (v w : Int)
    (hv1 : -(2 ^ 63) ≤ v) (hv2 : v < 2 ^ 63)
    (hw : w < -(2 ^ 63) ∨ 2 ^ 63 ≤ w) :
    bigIntegerToScript m v = some v ∧
    bigIntegerToScript m w = some (int64OfInt w) ∧
    int64OfInt w ≠ w ∧
    longToScript m v = some v := by
  have hid : int64OfInt v = v := by
    unfold int64OfInt
    have h1 : (0 : Int) ≤ v + 2 ^ 63 := by omega
    have h2 : v + 2 ^ 63 < 2 ^ 64 := by omega
    rw [Int.emod_eq_of_lt h1 h2]; omega
  have hrange : -(2 ^ 63) ≤ int64OfInt w ∧ int64OfInt w < 2 ^ 63 := by
    unfold int64OfInt
    have h1 := Int.emod_nonneg (w + 2 ^ 63) (by norm_num : (2 : Int) ^ 64 ≠ 0)
    have h2 := Int.emod_lt_of_pos (w + 2 ^ 63) (by norm_num : (0 : Int) < 2 ^ 64)
    constructor <;> omega
  refine ⟨?_, rfl, ?_, rfl⟩
  · show some (int64OfInt v) = some v
    rw [hid]
  · rcases hrange with ⟨hr1, hr2⟩
    omega

/-- C8 witness: 5 is converted exactly, 2^63 is wrapped (and hence
differs), and the Long path is exact. -/
theorem bigint_conversion_low64_witness :
    bigIntegerToScript M.init 5 = some 5 ∧
    bigIntegerToScript M.init (2 ^ 63) = some (int64OfInt (2 ^ 63)) ∧
    int64OfInt (2 ^ 63) ≠ 2 ^ 63 ∧
    longToScript M.init 5 = some 5 :=
  bigint_conversion_low64 M.init 5 (2 ^ 63) (by decide) (by decide)
    (Or.inr (by decide))

/-- C9: the object-handle helper (`with_object`, used by every
`QuickJSObject` operation) enters the engine directly via
`Context::with`: its result does not depend on the reentrancy stack, the
stack is left untouched, and `f` always runs in the newly opened scope
`fresh` — even when an entry for the same context is on the stack.  The
array-handle helper (`with_array`, used by every `QuickJSArray`
operation) goes through `with_context` instead and reuses the scope of
an existing entry for the context. -/
theorem object_ops_bypass_reentrancy_stack (st st2 : CtxStack) (m : M)
    (fresh : Nat) (ctxPtr objectPtr arrayPtr : Int)
    (f : Nat → Nat → R) (g : Nat → Nat → S) :
    (withObject st m fresh objectPtr f).1 = (withObject st2 m fresh objectPtr f).1 ∧
    (withObject st m fresh objectPtr f).2 = st ∧
    (withObject st m fresh objectPtr f).1
      = f fresh ((m.objectBoxes.lookup objectPtr).getD 0) ∧
    (withArray st m ctxPtr fresh arrayPtr g).2 = st ∧
    ((∃ e ∈ st, e.1 = ctxPtr ∧ (withArray st m ctxPtr fresh arrayPtr g).1
        = .normal (g e.2 ((m.arrayBoxes.lookup arrayPtr).getD 0))) ∨
     ((∀ e ∈ st, e.1 ≠ ctxPtr) ∧ (withArray st m ctxPtr fresh arrayPtr g).1
        = .normal (g fresh ((m.arrayBoxes.lookup arrayPtr).getD 0)))) := by
  refine ⟨rfl, rfl, rfl, ?_, ?_⟩
  · exact withContext_snd st ctxPtr fresh _
  · exact withContext_fst st ctxPtr fresh _

/-- C10: `QuickJSArray.setValue` returns `true` unconditionally — also
when the underlying element assignment fails, in which case the error is
surfaced as a thrown host exception; `addValue` and `removeValue` return
`false` when their underlying splice fails and `true` otherwise. -/
theorem array_ops_return_values (st : CtxStack) (m : M) (ctxPtr : Int)
    (fresh : Nat) (arrayPtr idx : Int) (value : JavaValue) (kc : List String)
    (o : Except JSError Unit) :
    (qjsArraySetValue st m ctxPtr fresh arrayPtr idx value kc o).1.1 = true ∧
    (qjsArraySetValue st m ctxPtr fresh arrayPtr idx value kc o).1.2
      = (match o with | .ok _ => none | .error e => some (handleException kc e)) ∧
    (qjsArrayAddValue st m ctxPtr fresh arrayPtr idx value kc o).1.1
      = (match o with | .ok _ => true | .error _ => false) ∧
    (qjsArrayRemoveValue st m ctxPtr fresh arrayPtr idx kc o).1.1
      = (match o with | .ok _ => true | .error _ => false) := by
  simp only [qjsArraySetValue, qjsArrayAddValue, qjsArrayRemoveValue, withArray_const]
  cases o <;> simp [FOutcome.getD]

/-- C6: `invoke(context, dotted_name, args)` with `dotted_name` of the
form `a.b` (neither segment containing a dot) walks `a` from the global
object and raises `"a is not an object"` when the value of `a` is not an
object (in particular when the global is absent and reads as undefined);
with `a` bound to an object, a non-callable value of `b` raises
`"a.b is not a function"` — the message carries the full dotted name —
while a callable one is invoked through
`invoke_js_function_with_java_parameters`: a non-empty host argument
list is converted element-wise with `from_object` (each materialised by
`into_js` as it is pushed) before the call, the empty list takes the
distinguished no-argument call path, and the call result is converted
back with `into_jobject`. -/
theorem invoke_contract (eng : Eng) (m : M) (kc : List String) (a b : String)
    (oid fid : Nat) (args : List JavaValue)
    (ha : a.toList.contains '.' = false) (hb : b.toList.contains '.' = false) :
    ((getGlobalV eng a).isObject = false →
        invokeNative eng m kc (a ++ "." ++ b) args
          = (.threwNew "java/lang/Exception" (a ++ " is not an object"), m)) ∧
    (getGlobalV eng a = .objectRef oid →
        (getHeapProp m oid (.str b) = .functionRef fid →
            invokeNative eng m kc (a ++ "." ++ b) args = invokeJsFn eng m kc fid args) ∧
        ((getHeapProp m oid (.str b)).isFunction = false →
            invokeNative eng m kc (a ++ "." ++ b) args
              = (.threwNew "java/lang/Exception"
                  ((a ++ "." ++ b) ++ " is not a function"), m))) ∧
    (∀ (jsArgs : List JSValue) (m1 : M), args.length > 0 →
        pushArgs m (args.map fromObject) = (.ok jsArgs, m1) →
        invokeJsFn eng m kc fid args = finishCall m1 kc (eng.fnBeh fid (.withArgs jsArgs))) ∧
    invokeJsFn eng m kc fid [] = finishCall m kc (eng.fnBeh fid .noArgs) ∧
    (∀ (s : JSValue) (m' : M) (j : JavaValue) (m2 : M),
        intoJobject m' s = (some j, m2) →
        finishCall m' kc (.ok s) = (.ok j, m2)) ∧
    (∀ (e : JSError) (m' : M),
        finishCall m' kc (.error e) = (.handled (handleException kc e), m')) := by
  have htl : (a ++ "." ++ b).toList = a.toList ++ '.' :: b.toList := by
    show (a ++ "." ++ b).data = a.data ++ '.' :: b.data
    simp [String.data_append]
  have hcont : (a ++ "." ++ b).toList.contains '.' = true := by
    rw [htl]
    have : '.' ∈ a.toList ++ '.' :: b.toList :=
      List.mem_append_right _ (List.mem_cons_self _ _)
    simp [this]
  have hparts : (splitOnChar '.' ((a ++ "." ++ b).toList)).map (fun l => String.mk l)
      = [a, b] := by
    rw [htl, splitOnChar_append _ _ _ ha, splitOnChar_of_no_sep _ _ hb]
    rfl
  refine ⟨?_, ?_, ?_, ?_, ?_, ?_⟩
  · intro h
    simp only [invokeNative, hcont, if_true, hparts]
    simp [walkPath, getFrom, Except.map, h]
  · intro hg
    constructor
    · intro hf
      simp only [invokeNative, hcont, if_true, hparts]
      simp [walkPath, getFrom, Except.map, hg, hf, JSValue.isObject, JSValue.refId,
        JSValue.isFunction]
    · intro hf
      simp only [invokeNative, hcont, if_true, hparts]
      simp [walkPath, getFrom, Except.map, hg, hf, JSValue.isObject, JSValue.refId]
  · intro jsArgs m1 hlen hpush
    simp [invokeJsFn, hlen, hpush]
  · rfl
  · intro s m' j m2 h
    simp [finishCall, h]
  · intro e m'
    rfl

/-- C6 witness: with global `math` mapped to an object whose `square`
property is the squaring function, `invoke` on `math.square` reaches the
function (and called with 7 returns 49); `math.missing` fails with
"math.missing is not a function"; `nope.square` fails with
"nope is not an object". -/
theorem invoke_contract_witness :
    invokeNative c6Eng c6M [] ("math" ++ "." ++ "square") [.jInt 7]
      = invokeJsFn c6Eng c6M [] 0 [.jInt 7] ∧
    invokeNative c6Eng c6M [] ("math" ++ "." ++ "missing") []
      = (.threwNew "java/lang/Exception" "math.missing is not a function", c6M) ∧
    invokeNative c6Eng c6M [] ("nope" ++ "." ++ "square") []
      = (.threwNew "java/lang/Exception" "nope is not an object", c6M) ∧
    invokeJsFn c6Eng c6M [] 0 [.jInt 7] = (.ok (.jInt 49), c6M) := by
  refine ⟨?_, ?_, ?_, ?_⟩
  · exact ((invoke_contract c6Eng c6M [] "math" "square" 0 0 [.jInt 7]
      (by decide) (by decide)).2.1 (by decide)).1 (by decide)
  · exact ((invoke_contract c6Eng c6M [] "math" "missing" 0 0 []
      (by decide) (by decide)).2.1 (by decide)).2 (by decide)
  · exact (invoke_contract c6Eng c6M [] "nope" "square" 0 0 []
      (by decide) (by decide)).1 (by decide)
  · rfl

/-- C7 witness: a host `java.lang.RuntimeException` with message "boom"
thrown at `Test.java:10` crosses into script carrying the three markers
and comes back as a `QuickJSScriptException` with a reconstructed
`java.lang.RuntimeException`/"boom" cause. -/
theorem host_exception_round_trip_witness :
    hostCallbackResult M.init
        (.error ⟨"boom", "java.lang.RuntimeException", [(some "Test.java", 10)]⟩)
      = (.error (.exception (.excObj ⟨some "boom", none,
          some "java.lang.RuntimeException", some "Test.java", some 10⟩)), M.init) ∧
    handleException ["java/lang/RuntimeException"] (.exception (.excObj
        ⟨some "boom", none, some "java.lang.RuntimeException",
          some "Test.java", some 10⟩))
      = ⟨quickJSScriptExceptionCls, some "boom",
          some ("java.lang.RuntimeException", some "boom"), some "Test.java", none⟩ :=
  host_exception_round_trip M.init ["java/lang/RuntimeException"]
    "java.lang.RuntimeException" "boom" (some "Test.java") 10 [] (by decide)

/-- C3 witness: the identity-preserving round trip at a concrete machine
and heap identity. -/
theorem handle_backed_wrapper_identity_witness :
    (intoJobject M.init (.arrayRef 3)).1 = some (.qjsArray 1) ∧
    fromObject (.qjsArray 1) = .nativeArray 1 ∧
    intoJs (intoJobject M.init (.arrayRef 3)).2 (.nativeArray 1)
      = (.ok (.arrayRef 3), (intoJobject M.init (.arrayRef 3)).2) ∧
    (intoJobject M.init (.objectRef 4)).1 = some (.qjsObject 1) ∧
    fromObject (.qjsObject 1) = .nativeObject 1 ∧
    intoJs (intoJobject M.init (.objectRef 4)).2 (.nativeObject 1)
      = (.ok (.objectRef 4), (intoJobject M.init (.objectRef 4)).2) :=
  handle_backed_wrapper_identity M.init 3 4

/-- C4 witness: a concrete instance of the amended classification
equality. -/
theorem from_object_classification_order_witness :
    (fromObject (.callable ⟨false, true, false, false, false, false⟩ 2)).kind
      = classifyKind (.callable ⟨false, true, false, false, false, false⟩ 2) :=
  from_object_classification_order (.callable ⟨false, true, false, false, false, false⟩ 2)

/-- C5 witness: with the context already on the stack, the stack is
unchanged by `with_context`. -/
theorem with_context_stack_discipline_witness :
    (withContext [(5, 7)] 5 9 (fun c => FOutcome.normal c)).2 = [(5, 7)] :=
  (with_context_stack_discipline [(5, 7)] 5 9 (fun c => FOutcome.normal c)).1

/-- C9 witness: a concrete object operation leaves the stack unchanged
and runs in the newly opened scope. -/
theorem object_ops_bypass_reentrancy_stack_witness :
    (withObject [(5, 7)] M.init 9 0 (fun c o => (c, o))).2 = [(5, 7)] ∧
    (withObject [(5, 7)] M.init 9 0 (fun c o => (c, o))).1
      = (9, (M.init.objectBoxes.lookup 0).getD 0) :=
  ⟨(object_ops_bypass_reentrancy_stack [(5, 7)] [] M.init 9 5 0 0
      (fun c o => (c, o)) (fun c o => (c, o))).2.1,
   (object_ops_bypass_reentrancy_stack [(5, 7)] [] M.init 9 5 0 0
      (fun c o => (c, o)) (fun c o => (c, o))).2.2.1⟩

/-- C10 witness: a failing assignment still returns true from setValue,
and a failing splice returns false from addValue. -/
theorem array_ops_return_values_witness :
    (qjsArraySetValue [] M.init 0 9 0 0 .null [] (.error (.other "boom"))).1.1
      = true ∧
    (qjsArrayAddValue [] M.init 0 9 0 0 .null [] (.error (.other "boom"))).1.1
      = false :=
  ⟨(array_ops_return_values [] M.init 0 9 0 0 .null [] (.error (.other "boom"))).1,
   (array_ops_return_values [] M.init 0 9 0 0 .null [] (.error (.other "boom"))).2.2.1⟩

end QuickJSBridge
